import Mathlib

/-!
# Verification of the beamline control core (transmission solver & vacuum sequencer)

Shallow embedding of the safety-interlocked control core of the 11-BM CMS
startup script (`startup/81-beam.py`): the attenuator/filter-box transmission
solver (`calc_transmission_filters`, `setTransmission`), the Nb-foil absorber
(`absorberCalcTransmission`, `setAbsorber`), and the vacuum-zone sequencing
procedures (`_pumpSample`, `_ventSample`, `diffPressure`).

Modelling conventions:
* Python floats are modelled as real numbers; the pressure comparisons in the
  vacuum sequencer involve only rational constants and are modelled over `ℚ`
  so that they stay decidable.
* Hardware reads are modelled as streams (`ℕ → ℚ` or `ℕ → ℤ`): the k-th call
  of `.get()`/`caget` on a control point returns the k-th element of the
  corresponding stream.
* Hardware writes (`bps.mov`, `caput`, motor moves) are collected in an
  action trace, in program order.
* `while` loops are given explicit fuel; a result of `none` means the loop
  did not exit within the supplied fuel (the code itself has no bound).
* The absorber actuator is modelled as ideal: after `armr.move(pos)` the
  read-back position equals `pos`, so the retry branch of `setAbsorber` is
  not taken.
-/

/-! ## Transmission solver: filter box (lines 1553-1724) -/

/-- Thickness [mm] of one Nb foil in the filter box (`d_Nb = 0.1`). -/
def d_Nb : ℝ := 0.1

/-- Thickness [mm] of one Al foil in the filter box (`d_Al = 0.25`). -/
def d_Al : ℝ := 0.25

/-- Absorption length [mm] of Nb: cubic fit to LBL CXRO data, 6 < E < 19 keV. -/
def l_Nb (E : ℝ) : ℝ :=
  1.4476e-3 - 5.6011e-4 * E + 1.0401e-4 * E ^ 2 + 8.7961e-6 * E ^ 3

/-- Absorption length [mm] of Al: cubic fit to LBL CXRO data, 6 < E < 19 keV. -/
def l_Al (E : ℝ) : ℝ :=
  5.2293e-3 - 1.3491e-3 * E + 1.7833e-4 * E ^ 2 + 1.4001e-4 * E ^ 3

/-- Transmission of the filter box with `nAl` Al foils and `nNb` Nb foils in
the beam: `tr_Nb * tr_Al = exp(-N_Nb*d_Nb/l_Nb) * exp(-N_Al*d_Al/l_Al)`
(body of `calc_transmission_filters` after the bit decomposition). -/
noncomputable def trFilters (E : ℝ) (nAl nNb : ℕ) : ℝ :=
  Real.exp (-(nNb : ℝ) * (d_Nb / l_Nb E)) * Real.exp (-(nAl : ℝ) * (d_Al / l_Al E))

/-- Model of `calc_transmission_filters`: the eight in/out foil settings are combined
binarily into the equivalent counts `N_Al = N0+2N1+4N2+8N3`,
`N_Nb = N4+2N5+4N6+8N7`, and the transmission is computed from the counts. -/
noncomputable def calc_transmission_filters (E : ℝ) (N : Fin 8 → ℕ) : ℝ :=
  trFilters E (N 0 + 2 * N 1 + 4 * N 2 + 8 * N 3) (N 4 + 2 * N 5 + 4 * N 6 + 8 * N 7)

/-- Deviation scanned by `setTransmission`:
`dev_ij = abs(transmission - exp(-i*d_l_Nb) * exp(-j*d_l_Al))` where the pair
`p = (i, j)` is `(N_Nb, N_Al)`. -/
noncomputable def devT (E t : ℝ) (p : ℕ × ℕ) : ℝ := |t - trFilters E p.2 p.1|

/-- The 256 grid points of the brute-force scan of `setTransmission`, in scan
order: `i = N_Nb` is the outer loop, `j = N_Al` the inner loop. -/
def scanPairs : List (ℕ × ℕ) :=
  (List.range 16).bind fun i => (List.range 16).map fun j => (i, j)

/-- One iteration of the scan: the Python code keeps the pair whenever
`dev_ij == min(dev)` where `dev` already contains `dev_ij`, which holds
exactly when `dev_ij` is less than or equal to the minimum seen so far. -/
def scanStep {α : Type} [LinearOrder α] (dev : ℕ × ℕ → α) (st : α × (ℕ × ℕ))
    (p : ℕ × ℕ) : α × (ℕ × ℕ) :=
  if dev p ≤ st.1 then (dev p, p) else st

/-- The pair `(N_Nb, N_Al)` left in the loop variables after the 16×16 scan of
`setTransmission` (lines 1682-1690). -/
def scanSelect {α : Type} [LinearOrder α] (dev : ℕ × ℕ → α) : ℕ × ℕ :=
  (scanPairs.foldl (scanStep dev) (dev (0, 0), (0, 0))).2

/-- The foil-count pair `(N_Nb, N_Al)` selected by `setTransmission` at energy
`E` for requested transmission `t`. -/
noncomputable def setTransmissionSelect (E t : ℝ) : ℕ × ℕ := scanSelect (devT E t)

/-- Formalisation of the tie-breaking sentence of the claim on
`setTransmission`: the selected pair comes no later in scan order (index
`16*N_Nb + N_Al`) than any other pair attaining the minimal deviation, i.e.
ties are resolved to the first-found pair. -/
def firstFoundTieAt (E t : ℝ) : Prop :=
  ∀ q ∈ scanPairs, devT E t q ≤ devT E t (setTransmissionSelect E t) →
    16 * (setTransmissionSelect E t).1 + (setTransmissionSelect E t).2 ≤ 16 * q.1 + q.2

/-- Total foil thickness in absorption lengths at energy `E` for the grid
pair `(i, j) = (N_Nb, N_Al)`: the scanned transmission is `exp (-xR E i j)`. -/
noncomputable def xR (E : ℝ) (i j : ℕ) : ℝ :=
  (i : ℝ) * (d_Nb / l_Nb E) + (j : ℝ) * (d_Al / l_Al E)

/-- The exponent `xR 13.5 i j` scaled by the positive common denominator
`2758691363 * 291195357`: at `E = 13.5` keV the exact values are
`d_Nb / l_Nb 13.5 = 8000000000 / 2758691363` and
`d_Al / l_Al 13.5 = 200000000 / 291195357` (proved below), so comparisons of
`xR 13.5` reduce to decidable integer comparisons of `xInt`. -/
def xInt (i j : ℕ) : ℤ :=
  8000000000 * 291195357 * i + 200000000 * 2758691363 * j

/-! ## Absorber wheel (lines 1762-1860) -/

/-- Thickness [mm] of one Nb foil of the absorber
(`d_Nb = 0.110` in `absorberCalcTransmission`). -/
def d_Nb_absorber : ℝ := 0.110

/-- The un-normalised measured beam intensities of the 10 keV calibration. -/
noncomputable def beam_int : List ℝ :=
  [3606803 / 403323 * 3296026, 3606803, 406113, 50002, 6268,
    6268 / 3520688 * 384577, 6268 / 3520688 * 43940, 6268 / 3520688 * 5383]

/-- The slot→transmission table selected by `absorberCalcTransmission` from
the current energy: calibrated tables near 13.5, 17 and 10 keV, and the
generic `exp(-i*d_l_Nb)` fallback (7 entries, `i = 0..6`) otherwise. -/
noncomputable def absorberList (E : ℝ) : List ℝ :=
  if |E - 13.5| < 0.01 then
    [1, 0.041, 0.0017425, 0.00007301075, 0.00000287662355, 0.000000122831826,
      0.00000000513437]
  else if |E - 17| < 0.01 then
    [1, 1.847e-1, 3.330e-2, 6.064e-3, 1.101e-3, 1.966e-4, 3.633e-5]
  else if |E - 10| < 0.1 then
    beam_int.map fun v => v / (3606803 / 403323 * 3296026)
  else
    (List.range 7).map fun i : ℕ => Real.exp (-(i : ℝ) * (d_Nb_absorber / l_Nb E))

/-- Model of `absorberCalcTransmission`: look the slot up in the selected table.
`none` models the `IndexError` raised when the slot indexes past the end of
the table. -/
noncomputable def absorberCalcTransmission (E : ℝ) (slot : ℤ) : Option ℝ :=
  (absorberList E).get? slot.toNat

/-- Outcome of `setAbsorber`: the energy-guard branch, the slot-guard branch,
a successful table lookup, or an out-of-bounds table lookup (`IndexError`)
after the move. -/
inductive AbsorberOutcome
  | energyErr
  | slotErr
  | ok (t : ℝ)
  | indexErr

/-- Model of `setAbsorber` with origin `o = armr_absorber_o`: guards on energy and on
`slot < 0 or slot > 7`, then moves the actuator to `o + slot*6` and reports
the table transmission.  The second component is the list of actuator
positions commanded (empty in the guard branches).  The actuator is modelled
as ideal, so the position check after the move passes and the retry branch is
not taken. -/
noncomputable def setAbsorber (o E : ℝ) (slot : ℤ) : AbsorberOutcome × List ℝ :=
  if E < 6 ∨ 18 < E then (AbsorberOutcome.energyErr, [])
  else if slot < 0 ∨ 7 < slot then (AbsorberOutcome.slotErr, [])
  else
    match absorberCalcTransmission E slot with
    | some t => (AbsorberOutcome.ok t, [o + (slot : ℝ) * 6])
    | none => (AbsorberOutcome.indexErr, [o + (slot : ℝ) * 6])

/-! ## Vacuum sequencer (lines 2408-2480, 2696-2719) -/

/-- Valve command strings used with `bps.mov` on the valve devices. -/
inductive ValveCmd
  | vOpen
  | vClose
  | vSoft
deriving DecidableEq

/-- Hardware writes issued by `_pumpSample` / `_ventSample`, in program
order: valve commands, pump-enable toggles, detector-outlet toggles, and
gate-actuator moves (`_gateIn` is `gatex := 0`, `_gateOut` is
`gatex := -95`). -/
inductive VacAct
  | ventSmpl (c : ValveCmd)
  | pumpSmpl (c : ValveCmd)
  | pumpDet (c : ValveCmd)
  | gvSAXS (c : ValveCmd)
  | pump2Toggle (v : ℤ)
  | outletToggle (v : ℤ)
  | gateMove (x : ℤ)
deriving DecidableEq

/-- Model of `diffPressure`: 4-way classification of the sample/detector pressure
pair; falls off the end of the `if/elif` chain (Python `None`, modelled as
`none`) when the two pressures are equal but not both below 1 mbar nor both
above 950 mbar. -/
def diffPressure (smpl det : ℚ) : Option ℕ :=
  if smpl < 1 ∧ det < 1 then some 0
  else if smpl > 950 ∧ det > 950 then some 3
  else if smpl > det then some 1
  else if smpl < det then some 2
  else none

/-- The pump-enable loop of `_pumpSample`
(`while self._pump2_state.get() != 1: toggle off, sleep 1, toggle on,
sleep 1`): reads the enable status stream from index `i`; returns the index
of the first read equal to 1 (= the number of off/on toggle cycles issued),
or `none` if that does not happen within `fuel` reads. -/
def waitEnable (p2 : ℕ → ℤ) : ℕ → ℕ → Option ℕ
  | _, 0 => none
  | i, fuel + 1 => if p2 i = 1 then some i else waitEnable p2 (i + 1) fuel

/-- A `while PV.get() > c: sleep` poll loop: reads the pressure stream from
index `i` and returns the index of the first reading `≤ c`, or `none` if
that does not happen within `fuel` reads. -/
def waitUntilLE (p : ℕ → ℚ) (c : ℚ) : ℕ → ℕ → Option ℕ
  | _, 0 => none
  | i, fuel + 1 => if p i ≤ c then some i else waitUntilLE p c (i + 1) fuel

/-- A `while PV.get() < c: sleep` poll loop: reads the pressure stream from
index `i` and returns the index of the first reading `≥ c`, or `none` if
that does not happen within `fuel` reads. -/
def waitUntilGE (p : ℕ → ℚ) (c : ℚ) : ℕ → ℕ → Option ℕ
  | _, 0 => none
  | i, fuel + 1 => if c ≤ p i then some i else waitUntilGE p c (i + 1) fuel

/-- The detector-outlet loop of `_ventSample`
(`while sts.get() == 1: set outlet off, sleep`): returns the index of the
first read different from 1 (= the number of off writes issued). -/
def waitNotOne (sts : ℕ → ℤ) : ℕ → ℕ → Option ℕ
  | _, 0 => none
  | i, fuel + 1 => if sts i = 1 then waitNotOne sts (i + 1) fuel else some i

/-- The writes issued by `n` iterations of the pump-enable toggle loop:
each cycle writes 0 then 1 to the pump-enable command point. -/
def toggleActs : ℕ → List VacAct
  | 0 => []
  | n + 1 => VacAct.pump2Toggle 0 :: VacAct.pump2Toggle 1 :: toggleActs n

/-- Model of `_pumpSample` (Evacuate): the guard aborts (flag `false`, no writes)
unless `diffPressure` classifies the pair as "sample pressure exceeds
detector pressure" (result 1).  Otherwise: close sample vent, close detector
pump valve, open sample pump valve, run the pump-enable toggle loop, wait for
the sample pressure to drop to 500 mbar, fully open the sample pump valve,
wait for it to drop to `threshold`, then reopen the detector pump valve and
open the window gate (`_gateOut`).  `diffPressure` consumes read 0 of each
pressure stream; the poll loops consume the following reads of the sample
stream.  `none` models a poll loop that never exits. -/
def pumpSample (smplP detP : ℕ → ℚ) (p2 : ℕ → ℤ) (threshold : ℚ)
    (fuelE fuelA fuelB : ℕ) : Option (List VacAct × Bool) :=
  if diffPressure (smplP 0) (detP 0) ≠ some 1 then some ([], false)
  else
    match waitEnable p2 0 fuelE with
    | none => none
    | some n =>
      match waitUntilLE smplP 500 1 fuelA with
      | none => none
      | some i =>
        match waitUntilLE smplP threshold (i + 1) fuelB with
        | none => none
        | some _ =>
          some ([VacAct.ventSmpl ValveCmd.vClose, VacAct.pumpDet ValveCmd.vClose,
              VacAct.pumpSmpl ValveCmd.vOpen] ++ toggleActs n ++
              [VacAct.pumpSmpl ValveCmd.vOpen, VacAct.pumpDet ValveCmd.vOpen,
                VacAct.gateMove (-95)], true)

/-- Model of `_ventSample` (Vent): close the SAXS gate valve, turn the detector
outlet off until its status reads off, close the window gate (`_gateIn`),
close the sample pump valve, soft-open the sample vent valve, wait for the
pressure to reach 800 mbar, fully open the vent valve, wait for it to reach
950 mbar.  The poll loops consume successive reads of the sample pressure
stream starting at index 0. -/
def ventSample (smplP : ℕ → ℚ) (outlet : ℕ → ℤ) (fuelO fuelA fuelB : ℕ) :
    Option (List VacAct) :=
  match waitNotOne outlet 0 fuelO with
  | none => none
  | some a =>
    match waitUntilGE smplP 800 0 fuelA with
    | none => none
    | some i =>
      match waitUntilGE smplP 950 (i + 1) fuelB with
      | none => none
      | some _ =>
        some ([VacAct.gvSAXS ValveCmd.vClose] ++
            List.replicate a (VacAct.outletToggle 0) ++
            [VacAct.gateMove 0, VacAct.pumpSmpl ValveCmd.vClose,
              VacAct.ventSmpl ValveCmd.vSoft, VacAct.ventSmpl ValveCmd.vOpen])

/-! ## Generic properties of the brute-force scan -/

/-- The running minimum of the scan never increases. -/
lemma scanFold_fst_le {α : Type} [LinearOrder α] (dev : ℕ × ℕ → α)
    (L : List (ℕ × ℕ)) (st : α × (ℕ × ℕ)) :
    (L.foldl (scanStep dev) st).1 ≤ st.1 := by
  induction L generalizing st with
  | nil => exact le_rfl
  | cons p L ih =>
    refine le_trans (ih (scanStep dev st p)) ?_
    unfold scanStep
    split
    · assumption
    · exact le_rfl

/-- After the scan, the running minimum is at most every scanned deviation. -/
lemma scanFold_le_mem {α : Type} [LinearOrder α] (dev : ℕ × ℕ → α)
    (L : List (ℕ × ℕ)) (st : α × (ℕ × ℕ)) :
    ∀ p ∈ L, (L.foldl (scanStep dev) st).1 ≤ dev p := by
  induction L generalizing st with
  | nil => intro p hp; cases hp
  | cons q L ih =>
    intro p hp
    rcases List.mem_cons.1 hp with rfl | hp
    · refine le_trans (scanFold_fst_le dev L (scanStep dev st p)) ?_
      unfold scanStep
      split
      · exact le_rfl
      · exact le_of_lt (lt_of_not_le (by assumption))
    · exact ih (scanStep dev st q) p hp

/-- The scan state is either untouched or holds a scanned pair together with
its own deviation as the running minimum. -/
lemma scanFold_snd {α : Type} [LinearOrder α] (dev : ℕ × ℕ → α)
    (L : List (ℕ × ℕ)) (st : α × (ℕ × ℕ)) :
    L.foldl (scanStep dev) st = st ∨
      ((L.foldl (scanStep dev) st).2 ∈ L ∧
        (L.foldl (scanStep dev) st).1 = dev (L.foldl (scanStep dev) st).2) := by
  induction L generalizing st with
  | nil => exact Or.inl rfl
  | cons p L ih =>
    have hstep : L.foldl (scanStep dev) (scanStep dev st p) =
        (p :: L).foldl (scanStep dev) st := rfl
    rcases ih (scanStep dev st p) with h | h
    · rw [← hstep, h]
      unfold scanStep
      split
      · exact Or.inr ⟨List.mem_cons_self _ _, rfl⟩
      · exact Or.inl rfl
    · rw [← hstep]
      exact Or.inr ⟨List.mem_cons_of_mem _ h.1, h.2⟩

/-- If a pair `q` ties the final running minimum, the final selection is `q`
itself or comes from the part of the list after `q`: the scan keeps the
last pair attaining the minimum. -/
lemma scanFold_last {α : Type} [LinearOrder α] (dev : ℕ × ℕ → α)
    (l₁ : List (ℕ × ℕ)) (st : α × (ℕ × ℕ)) (q : ℕ × ℕ) (l₂ : List (ℕ × ℕ)) :
    dev q ≤ ((l₁ ++ q :: l₂).foldl (scanStep dev) st).1 →
      ((l₁ ++ q :: l₂).foldl (scanStep dev) st).2 ∈ l₂ ∨
        ((l₁ ++ q :: l₂).foldl (scanStep dev) st).2 = q := by
  induction l₁ generalizing st with
  | nil =>
    intro hq
    simp only [List.nil_append, List.foldl_cons] at hq ⊢
    rcases scanFold_snd dev l₂ (scanStep dev st q) with h | h
    · rw [h] at hq ⊢
      by_cases hc : dev q ≤ st.1
      · simp [scanStep, hc]
      · simp only [scanStep, if_neg hc] at hq
        exact absurd hq hc
    · exact Or.inl h.1
  | cons a l₁ ih =>
    intro hq
    simp only [List.cons_append, List.foldl_cons] at hq ⊢
    exact ih (scanStep dev st a) hq

/-- A pair belongs to the scan grid iff both coordinates are below 16. -/
lemma mem_scanPairs {p : ℕ × ℕ} : p ∈ scanPairs ↔ p.1 < 16 ∧ p.2 < 16 := by
  cases p with
  | mk i j =>
    simp only [scanPairs, List.mem_bind, List.mem_map, List.mem_range, Prod.mk.injEq]
    constructor
    · rintro ⟨i', hi', j', hj', rfl, rfl⟩
      exact ⟨hi', hj'⟩
    · rintro ⟨hi, hj⟩
      exact ⟨i, hi, j, hj, rfl, rfl⟩

set_option maxRecDepth 40000 in
/-- The scan grid is strictly sorted by the scan-order index `16*i + j`. -/
lemma scanPairs_sorted :
    scanPairs.Pairwise (fun p q : ℕ × ℕ => 16 * p.1 + p.2 < 16 * q.1 + q.2) := by
  decide

/-- The selected pair lies on the grid. -/
lemma scanSelect_mem {α : Type} [LinearOrder α] (dev : ℕ × ℕ → α) :
    scanSelect dev ∈ scanPairs := by
  unfold scanSelect
  rcases scanFold_snd dev scanPairs (dev (0, 0), (0, 0)) with h | h
  · rw [h]
    exact (by decide : ((0, 0) : ℕ × ℕ) ∈ scanPairs)
  · exact h.1

/-- The final running minimum is the deviation of the selected pair. -/
lemma scanSelect_fst {α : Type} [LinearOrder α] (dev : ℕ × ℕ → α) :
    (scanPairs.foldl (scanStep dev) (dev (0, 0), (0, 0))).1 = dev (scanSelect dev) := by
  unfold scanSelect
  rcases scanFold_snd dev scanPairs (dev (0, 0), (0, 0)) with h | h
  · rw [h]
  · exact h.2

/-- The selected pair attains the global minimum of the deviation over the
16×16 grid. -/
lemma scanSelect_min {α : Type} [LinearOrder α] (dev : ℕ × ℕ → α) :
    ∀ p ∈ scanPairs, dev (scanSelect dev) ≤ dev p := by
  intro p hp
  rw [← scanSelect_fst dev]
  exact scanFold_le_mem dev scanPairs _ p hp

/-- Among the pairs attaining the global minimum, the selected pair is the
one occurring last in scan order. -/
lemma scanSelect_last {α : Type} [LinearOrder α] (dev : ℕ × ℕ → α) :
    ∀ q ∈ scanPairs, dev q ≤ dev (scanSelect dev) →
      16 * q.1 + q.2 ≤ 16 * (scanSelect dev).1 + (scanSelect dev).2 := by
  intro q hq hle
  obtain ⟨l₁, l₂, hsplit⟩ := List.append_of_mem hq
  have hfold : dev q ≤ ((l₁ ++ q :: l₂).foldl (scanStep dev) (dev (0, 0), (0, 0))).1 := by
    rw [← hsplit, scanSelect_fst dev]
    exact hle
  have hsel := scanFold_last dev l₁ (dev (0, 0), (0, 0)) q l₂ hfold
  rw [← hsplit] at hsel
  have hpair := scanPairs_sorted
  rw [hsplit] at hpair
  rcases hsel with hmem | heq
  · have h2 := (List.pairwise_append.1 hpair).2.1
    have hs : scanSelect dev ∈ l₂ := hmem
    exact le_of_lt ((List.pairwise_cons.1 h2).1 _ hs)
  · have hs : scanSelect dev = q := heq
    rw [hs]

/-- If one grid pair beats every other grid pair strictly, it is the one the
scan selects. -/
lemma scanSelect_eq_of_unique {α : Type} [LinearOrder α] (dev : ℕ × ℕ → α)
    (u : ℕ × ℕ) (hu : u ∈ scanPairs)
    (hlt : ∀ p ∈ scanPairs, p ≠ u → dev u < dev p) :
    scanSelect dev = u := by
  by_contra hne
  exact absurd (scanSelect_min dev u hu)
    (not_le.2 (hlt (scanSelect dev) (scanSelect_mem dev) hne))

/-- If exactly two grid pairs tie for the minimum, the scan selects the one
later in scan order. -/
lemma scanSelect_eq_of_tie {α : Type} [LinearOrder α] (dev : ℕ × ℕ → α)
    (q₀ u : ℕ × ℕ) (hu : u ∈ scanPairs)
    (htie : dev q₀ = dev u)
    (hlt : ∀ p ∈ scanPairs, p ≠ q₀ → p ≠ u → dev u < dev p)
    (hidx : 16 * q₀.1 + q₀.2 < 16 * u.1 + u.2) :
    scanSelect dev = u := by
  have hsel_mem := scanSelect_mem dev
  have hcases : scanSelect dev = q₀ ∨ scanSelect dev = u := by
    by_contra hne
    push_neg at hne
    exact absurd (scanSelect_min dev u hu)
      (not_le.2 (hlt (scanSelect dev) hsel_mem hne.1 hne.2))
  rcases hcases with h | h
  · exfalso
    have hle : dev u ≤ dev (scanSelect dev) := by rw [h, htie]
    have := scanSelect_last dev u hu hle
    rw [h] at this
    omega
  · exact h

/-! ## Poll-loop lemmas for the vacuum sequencer -/

/-- If some reading in the fuel window is `≤ c`, the `waitUntilLE` loop exits
at the first such reading. -/
lemma waitUntilLE_spec (p : ℕ → ℚ) (c : ℚ) :
    ∀ fuel i N, i ≤ N → N < i + fuel → p N ≤ c →
      ∃ m, waitUntilLE p c i fuel = some m ∧ i ≤ m ∧ m ≤ N ∧ p m ≤ c ∧
        ∀ k, i ≤ k → k < m → c < p k := by
  intro fuel
  induction fuel with
  | zero => intro i N hiN hlt _; omega
  | succ fuel ih =>
    intro i N hiN hlt hN
    by_cases hc : p i ≤ c
    · exact ⟨i, by simp [waitUntilLE, hc], le_rfl, hiN, hc, fun k h1 h2 => absurd h1 (by omega)⟩
    · have hiN' : i < N := by
        rcases lt_or_eq_of_le hiN with h | h
        · exact h
        · exact absurd (h ▸ hN) hc
      obtain ⟨m, hm, h1, h2, h3, h4⟩ := ih (i + 1) N (by omega) (by omega) hN
      refine ⟨m, by simp [waitUntilLE, hc, hm], by omega, h2, h3, ?_⟩
      intro k hk1 hk2
      rcases Nat.eq_or_lt_of_le hk1 with rfl | hk
      · exact lt_of_not_le hc
      · exact h4 k hk hk2

/-- If some reading in the fuel window is `≥ c`, the `waitUntilGE` loop exits
at the first such reading. -/
lemma waitUntilGE_spec (p : ℕ → ℚ) (c : ℚ) :
    ∀ fuel i N, i ≤ N → N < i + fuel → c ≤ p N →
      ∃ m, waitUntilGE p c i fuel = some m ∧ i ≤ m ∧ m ≤ N ∧ c ≤ p m ∧
        ∀ k, i ≤ k → k < m → p k < c := by
  intro fuel
  induction fuel with
  | zero => intro i N hiN hlt _; omega
  | succ fuel ih =>
    intro i N hiN hlt hN
    by_cases hc : c ≤ p i
    · exact ⟨i, by simp [waitUntilGE, hc], le_rfl, hiN, hc, fun k h1 h2 => absurd h1 (by omega)⟩
    · have hiN' : i < N := by
        rcases lt_or_eq_of_le hiN with h | h
        · exact h
        · exact absurd (h ▸ hN) hc
      obtain ⟨m, hm, h1, h2, h3, h4⟩ := ih (i + 1) N (by omega) (by omega) hN
      refine ⟨m, by simp [waitUntilGE, hc, hm], by omega, h2, h3, ?_⟩
      intro k hk1 hk2
      rcases Nat.eq_or_lt_of_le hk1 with rfl | hk
      · exact lt_of_not_le hc
      · exact h4 k hk hk2

/-- If some status reading in the fuel window differs from 1, the
detector-outlet loop exits at the first such reading. -/
lemma waitNotOne_spec (sts : ℕ → ℤ) :
    ∀ fuel i N, i ≤ N → N < i + fuel → sts N ≠ 1 →
      ∃ m, waitNotOne sts i fuel = some m ∧ i ≤ m ∧ m ≤ N ∧ sts m ≠ 1 ∧
        ∀ k, i ≤ k → k < m → sts k = 1 := by
  intro fuel
  induction fuel with
  | zero => intro i N hiN hlt _; omega
  | succ fuel ih =>
    intro i N hiN hlt hN
    by_cases hc : sts i = 1
    · have hiN' : i < N := by
        rcases lt_or_eq_of_le hiN with h | h
        · exact h
        · exact absurd (h ▸ hc) hN
      obtain ⟨m, hm, h1, h2, h3, h4⟩ := ih (i + 1) N (by omega) (by omega) hN
      refine ⟨m, by simp [waitNotOne, hc, hm], by omega, h2, h3, ?_⟩
      intro k hk1 hk2
      rcases Nat.eq_or_lt_of_le hk1 with rfl | hk
      · exact hc
      · exact h4 k hk hk2
    · exact ⟨i, by simp [waitNotOne, hc], le_rfl, hiN, hc, fun k h1 h2 => absurd h1 (by omega)⟩

/-- The guard branch of `_pumpSample`: any differential-pressure result other
than 1 aborts before any hardware write. -/
lemma pumpSample_abort (smplP detP : ℕ → ℚ) (p2 : ℕ → ℤ) (threshold : ℚ)
    (fuelE fuelA fuelB : ℕ) (h : diffPressure (smplP 0) (detP 0) ≠ some 1) :
    pumpSample smplP detP p2 threshold fuelE fuelA fuelB = some ([], false) := by
  simp [pumpSample, h]

/-- When the two pressures are equal and the pair is neither "both vacuum"
nor "both air", `diffPressure` falls through all four branches. -/
lemma diffPressure_eq_none (s d : ℚ) (h1 : s = d) (h2 : ¬(s < 1 ∧ d < 1))
    (h3 : ¬(s > 950 ∧ d > 950)) : diffPressure s d = none := by
  subst h1
  simp only [diffPressure, if_neg h2, if_neg h3, gt_iff_lt, lt_self_iff_false,
    if_false, if_neg (lt_irrefl s)]

/-! ## Claim theorems: vacuum sequencer -/

/-- C2 — the pump-enable toggle loop of `_pumpSample` is NOT bounded: with a
pump-enable status that never reads "enabled" (always 0), the loop never
exits, for any amount of fuel, and the whole Evacuate procedure hangs
(result `none`) instead of failing with a bounded-retry error.  This
contradicts the specified bounded retry with fatal `PumpNotEnabled`. -/
theorem pumpSample_enable_loop_unbounded :
    (∀ fuel i, waitEnable (fun _ => 0) i fuel = none) ∧
    (∀ fuelE fuelA fuelB, pumpSample (fun _ => 1000) (fun _ => 0.5) (fun _ => 0)
      0.7 fuelE fuelA fuelB = none) := by
  have h1 : ∀ fuel i, waitEnable (fun _ => 0) i fuel = none := by
    intro fuel
    induction fuel with
    | zero => intro i; rfl
    | succ fuel ih =>
      intro i
      simp only [waitEnable, ih]
      norm_num
  refine ⟨h1, fun fuelE fuelA fuelB => ?_⟩
  have hg : diffPressure 1000 0.5 = some 1 := by norm_num [diffPressure]
  simp only [pumpSample, hg, ne_eq, not_true_eq_false, if_false, h1]

/-- C3 — whenever the differential-pressure check reports anything other
than "sample pressure exceeds detector pressure" (result 1), Evacuate aborts
immediately: it issues no valve or pump write. -/
theorem pumpSample_guard_aborts (smplP detP : ℕ → ℚ) (p2 : ℕ → ℤ)
    (threshold : ℚ) (fuelE fuelA fuelB : ℕ)
    (h : diffPressure (smplP 0) (detP 0) ≠ some 1) :
    pumpSample smplP detP p2 threshold fuelE fuelA fuelB = some ([], false) :=
  pumpSample_abort smplP detP p2 threshold fuelE fuelA fuelB h

/-- Witness for C3: both zones already in vacuum (0.5 mbar each) is
classified 0, not 1, and Evacuate issues zero writes. -/
theorem pumpSample_guard_aborts_witness :
    pumpSample (fun _ => 0.5) (fun _ => 0.5) (fun _ => 1) 0.7 1 1 1 =
      some ([], false) :=
  pumpSample_guard_aborts (fun _ => 0.5) (fun _ => 0.5) (fun _ => 1) 0.7 1 1 1
    (by norm_num [diffPressure])

/-- C9 — the classification is partial: equal pressures that are neither
both below 1 mbar nor both above 950 mbar fall through every branch of
`diffPressure` (Python returns `None`), and Evacuate treats this as a guard
failure, aborting with zero writes. -/
theorem diffPressure_partial (smplP detP : ℕ → ℚ) (p2 : ℕ → ℤ)
    (threshold : ℚ) (fuelE fuelA fuelB : ℕ)
    (h1 : smplP 0 = detP 0) (h2 : ¬(smplP 0 < 1 ∧ detP 0 < 1))
    (h3 : ¬(smplP 0 > 950 ∧ detP 0 > 950)) :
    diffPressure (smplP 0) (detP 0) = none ∧
      pumpSample smplP detP p2 threshold fuelE fuelA fuelB = some ([], false) := by
  have hnone := diffPressure_eq_none (smplP 0) (detP 0) h1 h2 h3
  exact ⟨hnone, pumpSample_abort _ _ _ _ _ _ _ (by simp [hnone])⟩

/-- Witness for C9: equal mid-range pressures (500 mbar each). -/
theorem diffPressure_partial_witness :
    diffPressure ((fun _ => (500 : ℚ)) 0) ((fun _ => (500 : ℚ)) 0) = none ∧
      pumpSample (fun _ => 500) (fun _ => 500) (fun _ => 1) 0.7 1 1 1 =
        some ([], false) :=
  diffPressure_partial (fun _ => 500) (fun _ => 500) (fun _ => 1) 0.7 1 1 1
    rfl (by norm_num) (by norm_num)

/-- C6 — Evacuate on a monotonically falling pressure trace: with the guard
passing and the pump already enabled, the procedure waits while the sample
pressure exceeds the coarse 500 mbar threshold (exiting at the first reading
at or below it), issues exactly one further fully-open write to the sample
pump valve after that crossing, keeps polling until the first reading at or
below `threshold`, and only then reopens the detector pump valve and opens
the window gate: the complete write trace is
`[ventSmpl Close, pumpDet Close, pumpSmpl Open, pumpSmpl Open, pumpDet Open,
gateMove (-95)]`. -/
theorem pumpSample_falling_trace (smplP detP : ℕ → ℚ) (p2 : ℕ → ℤ)
    (threshold : ℚ) (N : ℕ)
    (hguard : diffPressure (smplP 0) (detP 0) = some 1)
    (hp2 : p2 0 = 1)
    (hmono : ∀ j k, j ≤ k → smplP k ≤ smplP j)
    (hN : smplP N ≤ threshold) (hθ : threshold ≤ 500) :
    ∃ i m, 1 ≤ i ∧ smplP i ≤ 500 ∧ (∀ k, 1 ≤ k → k < i → 500 < smplP k) ∧
      i < m ∧ smplP m ≤ threshold ∧ (∀ k, i < k → k < m → threshold < smplP k) ∧
      pumpSample smplP detP p2 threshold 1 (N + 1) (N + 1) =
        some ([VacAct.ventSmpl ValveCmd.vClose, VacAct.pumpDet ValveCmd.vClose,
          VacAct.pumpSmpl ValveCmd.vOpen, VacAct.pumpSmpl ValveCmd.vOpen,
          VacAct.pumpDet ValveCmd.vOpen, VacAct.gateMove (-95)], true) := by
  have hen : waitEnable p2 0 1 = some 0 := by simp [waitEnable, hp2]
  have h500 : smplP (N + 1) ≤ 500 :=
    le_trans (le_trans (hmono N (N + 1) (by omega)) hN) hθ
  obtain ⟨i, hi, hi1, hi2, hi3, hi4⟩ :=
    waitUntilLE_spec smplP 500 (N + 1) 1 (N + 1) (by omega) (by omega) h500
  have hθi : smplP (i + N + 1) ≤ threshold :=
    le_trans (hmono N (i + N + 1) (by omega)) hN
  obtain ⟨m, hm, hm1, hm2, hm3, hm4⟩ :=
    waitUntilLE_spec smplP threshold (N + 1) (i + 1) (i + N + 1) (by omega)
      (by omega) hθi
  refine ⟨i, m, hi1, hi3, hi4, by omega, hm3, ?_, ?_⟩
  · intro k hk1 hk2
    exact hm4 k (by omega) hk2
  · simp only [pumpSample, hguard, ne_eq, not_true_eq_false, if_false, hen,
      hi, hm, toggleActs]
    rfl

/-- Witness for C6: trace 1000, 800, 600, 400, 200, 0, 0, … mbar against a
detector at 0.5 mbar, pump enabled, default threshold 0.7 mbar. -/
theorem pumpSample_falling_trace_witness :
    ∃ i m, 1 ≤ i ∧ (fun k => (1000 : ℚ) - 200 * (min k 5 : ℕ)) i ≤ 500 ∧
      (∀ k, 1 ≤ k → k < i → 500 < (fun k => (1000 : ℚ) - 200 * (min k 5 : ℕ)) k) ∧
      i < m ∧ (fun k => (1000 : ℚ) - 200 * (min k 5 : ℕ)) m ≤ 0.7 ∧
      (∀ k, i < k → k < m → 0.7 < (fun k => (1000 : ℚ) - 200 * (min k 5 : ℕ)) k) ∧
      pumpSample (fun k => (1000 : ℚ) - 200 * (min k 5 : ℕ)) (fun _ => 0.5)
          (fun _ => 1) 0.7 1 6 6 =
        some ([VacAct.ventSmpl ValveCmd.vClose, VacAct.pumpDet ValveCmd.vClose,
          VacAct.pumpSmpl ValveCmd.vOpen, VacAct.pumpSmpl ValveCmd.vOpen,
          VacAct.pumpDet ValveCmd.vOpen, VacAct.gateMove (-95)], true) :=
  pumpSample_falling_trace (fun k => (1000 : ℚ) - 200 * (min k 5 : ℕ))
    (fun _ => 0.5) (fun _ => 1) 0.7 5
    (by norm_num [diffPressure]) rfl
    (by
      intro j k hjk
      have h : (min j 5 : ℕ) ≤ min k 5 := min_le_min hjk le_rfl
      have h2 : ((min j 5 : ℕ) : ℚ) ≤ ((min k 5 : ℕ) : ℚ) := by exact_mod_cast h
      show (1000 : ℚ) - 200 * ((min k 5 : ℕ) : ℚ) ≤ 1000 - 200 * ((min j 5 : ℕ) : ℚ)
      linarith)
    (by norm_num) (by norm_num)

/-- C7 — Vent: the write trace is, in order, close the SAXS gate valve,
toggle the detector-outlet power off until its status first reads off, close
the window gate, close the sample pump valve, soft-open the vent valve, and
(after polling until the first pressure reading at or above 800 mbar) fully
open the vent valve, polling until the first reading at or above 950 mbar. -/
theorem ventSample_trace (smplP : ℕ → ℚ) (outlet : ℕ → ℤ) (A N : ℕ)
    (hA : outlet A ≠ 1)
    (hmono : ∀ j k, j ≤ k → smplP j ≤ smplP k)
    (hN : 950 ≤ smplP N) :
    ∃ a i m, a ≤ A ∧ outlet a ≠ 1 ∧ (∀ k, k < a → outlet k = 1) ∧
      800 ≤ smplP i ∧ (∀ k, k < i → smplP k < 800) ∧
      i < m ∧ 950 ≤ smplP m ∧ (∀ k, i < k → k < m → smplP k < 950) ∧
      ventSample smplP outlet (A + 1) (N + 1) (N + 1) =
        some ([VacAct.gvSAXS ValveCmd.vClose] ++
          List.replicate a (VacAct.outletToggle 0) ++
          [VacAct.gateMove 0, VacAct.pumpSmpl ValveCmd.vClose,
            VacAct.ventSmpl ValveCmd.vSoft, VacAct.ventSmpl ValveCmd.vOpen]) := by
  obtain ⟨a, ha, ha1, ha2, ha3, ha4⟩ :=
    waitNotOne_spec outlet (A + 1) 0 A (by omega) (by omega) hA
  have h800 : (800 : ℚ) ≤ smplP N := le_trans (by norm_num) hN
  obtain ⟨i, hi, hi1, hi2, hi3, hi4⟩ :=
    waitUntilGE_spec smplP 800 (N + 1) 0 N (by omega) (by omega) h800
  have h950 : (950 : ℚ) ≤ smplP (i + N + 1) :=
    le_trans hN (hmono N (i + N + 1) (by omega))
  obtain ⟨m, hm, hm1, hm2, hm3, hm4⟩ :=
    waitUntilGE_spec smplP 950 (N + 1) (i + 1) (i + N + 1) (by omega)
      (by omega) h950
  refine ⟨a, i, m, ha2, ha3, fun k hk => ha4 k (by omega) hk, hi3, ?_,
    by omega, hm3, ?_, ?_⟩
  · intro k hk
    exact hi4 k (by omega) hk
  · intro k hk1 hk2
    exact hm4 k (by omega) hk2
  · simp only [ventSample, ha, hi, hm]

/-- Witness for C7: outlet on for one read then off; pressure rising
600, 700, …, 1100 mbar. -/
theorem ventSample_trace_witness :
    ∃ a i m, a ≤ 1 ∧ (fun k => if k = 0 then (1 : ℤ) else 0) a ≠ 1 ∧
      (∀ k, k < a → (fun k => if k = 0 then (1 : ℤ) else 0) k = 1) ∧
      800 ≤ (fun k => (600 : ℚ) + 100 * (min k 5 : ℕ)) i ∧
      (∀ k, k < i → (fun k => (600 : ℚ) + 100 * (min k 5 : ℕ)) k < 800) ∧
      i < m ∧ 950 ≤ (fun k => (600 : ℚ) + 100 * (min k 5 : ℕ)) m ∧
      (∀ k, i < k → k < m → (fun k => (600 : ℚ) + 100 * (min k 5 : ℕ)) k < 950) ∧
      ventSample (fun k => (600 : ℚ) + 100 * (min k 5 : ℕ))
          (fun k => if k = 0 then (1 : ℤ) else 0) 2 6 6 =
        some ([VacAct.gvSAXS ValveCmd.vClose] ++
          List.replicate a (VacAct.outletToggle 0) ++
          [VacAct.gateMove 0, VacAct.pumpSmpl ValveCmd.vClose,
            VacAct.ventSmpl ValveCmd.vSoft, VacAct.ventSmpl ValveCmd.vOpen]) :=
  ventSample_trace (fun k => (600 : ℚ) + 100 * (min k 5 : ℕ))
    (fun k => if k = 0 then (1 : ℤ) else 0) 1 5
    (by norm_num)
    (by
      intro j k hjk
      have h : (min j 5 : ℕ) ≤ min k 5 := min_le_min hjk le_rfl
      have h2 : ((min j 5 : ℕ) : ℚ) ≤ ((min k 5 : ℕ) : ℚ) := by exact_mod_cast h
      show (600 : ℚ) + 100 * ((min j 5 : ℕ) : ℚ) ≤ 600 + 100 * ((min k 5 : ℕ) : ℚ)
      linarith)
    (by norm_num)

/-! ## Claim theorems: absorber wheel -/

/-- At any in-range energy that does not hit the 10 keV table, slot 7 indexes
past the end of the selected 7-entry table. -/
lemma absorberCalc_slot7_none (E : ℝ) (h3 : ¬|E - 10| < 0.1) :
    absorberCalcTransmission E 7 = none := by
  unfold absorberCalcTransmission absorberList
  by_cases h1 : |E - 13.5| < 0.01
  · simp [h1]
  · by_cases h2 : |E - 17| < 0.01
    · simp [h1, h2]
    · simp [h1, h2, h3, List.get?_eq_none]

/-- C4 counterexample — slot 8 is NOT accepted: `setAbsorber` takes the
`slot < 0 or slot > 7` error branch and never commands the actuator,
although the claim requires every slot in [0, 8] to be accepted. -/
theorem setAbsorber_slot8_rejected :
    setAbsorber 0 13.5 8 = (AbsorberOutcome.slotErr, []) := by
  have hE : ¬((13.5 : ℝ) < 6 ∨ (18 : ℝ) < 13.5) := by norm_num
  have hs : ((8 : ℤ) < 0 ∨ 7 < (8 : ℤ)) := by decide
  simp [setAbsorber, hE, hs]

/-- C4 (amended) — the accepted slot range of `setAbsorber` is [0, 7]: at a
supported energy, every integer slot outside [0, 7] (in particular every
slot outside [0, 8]) fails in the guard branch with zero actuator commands,
and every slot in [0, 7] is accepted and the actuator is commanded to
`armr_absorber_o + slot*6`. -/
theorem setAbsorber_range (o E : ℝ) (slot : ℤ) (h1 : 6 ≤ E) (h2 : E ≤ 18) :
    ((slot < 0 ∨ 7 < slot) →
      setAbsorber o E slot = (AbsorberOutcome.slotErr, [])) ∧
    (0 ≤ slot → slot ≤ 7 →
      (setAbsorber o E slot).2 = [o + (slot : ℝ) * 6]) := by
  have hE : ¬(E < 6 ∨ 18 < E) := by
    push_neg
    exact ⟨h1, h2⟩
  constructor
  · intro h
    simp [setAbsorber, hE, h]
  · intro ha hb
    have hs : ¬(slot < 0 ∨ 7 < slot) := by omega
    cases habs : absorberCalcTransmission E slot with
    | none => simp [setAbsorber, hE, hs, habs]
    | some t => simp [setAbsorber, hE, hs, habs]

/-- Witness for C4 (amended): at 13.5 keV, slot 9 — which both the original
and the amended claim place outside the accepted range — is rejected with
zero actuator commands. -/
theorem setAbsorber_range_witness :
    setAbsorber 0 13.5 9 = (AbsorberOutcome.slotErr, []) :=
  (setAbsorber_range 0 13.5 9 (by norm_num) (by norm_num)).1 (by decide)

/-- C10 — `setAbsorber` accepts slot 7, but at every supported energy that
does not select the 8-entry 10 keV table (in particular near 13.5 keV, near
17 keV, and for the generic fallback) the selected table has only 7 entries,
so the lookup for slot 7 runs past the end of the table — after the actuator
has already been commanded to `armr_absorber_o + 7*6`. -/
theorem setAbsorber_slot7_overrun (o E : ℝ) (h1 : 6 ≤ E) (h2 : E ≤ 18)
    (h3 : ¬|E - 10| < 0.1) :
    setAbsorber o E 7 = (AbsorberOutcome.indexErr, [o + (7 : ℝ) * 6]) := by
  have hE : ¬(E < 6 ∨ 18 < E) := by
    push_neg
    exact ⟨h1, h2⟩
  have hs : ¬((7 : ℤ) < 0 ∨ 7 < (7 : ℤ)) := by decide
  have hnone := absorberCalc_slot7_none E h3
  simp [setAbsorber, hE, hs, hnone]

/-- Witness for C10: at exactly 13.5 keV, slot 7 moves the actuator and then
overruns the 7-entry calibrated table. -/
theorem setAbsorber_slot7_overrun_witness :
    setAbsorber 0 13.5 7 = (AbsorberOutcome.indexErr, [0 + (7 : ℝ) * 6]) :=
  setAbsorber_slot7_overrun 0 13.5 (by norm_num) (by norm_num)
    (by rw [abs_of_nonneg (by norm_num : (0 : ℝ) ≤ 13.5 - 10)]; norm_num)

/-! ## Claim theorems: monotonicity of transmission -/

/-- The Nb absorption-length fit is positive on the supported energy range. -/
lemma l_Nb_pos (E : ℝ) (h1 : 6 ≤ E) (h2 : E ≤ 18) : 0 < l_Nb E := by
  have h0 : (0 : ℝ) < E := by linarith
  have hsq : 6 * E ≤ E ^ 2 := by nlinarith
  have hcu : 0 ≤ E ^ 3 := by positivity
  unfold l_Nb
  nlinarith

/-- The Al absorption-length fit is positive on the supported energy range. -/
lemma l_Al_pos (E : ℝ) (h1 : 6 ≤ E) (h2 : E ≤ 18) : 0 < l_Al E := by
  have h0 : (0 : ℝ) < E := by linarith
  have hsq : (0 : ℝ) ≤ E ^ 2 := by positivity
  have h36 : 36 * E ≤ E ^ 3 := by nlinarith
  unfold l_Al
  nlinarith

/-- Monotonicity of the filter-box model in the foil counts: at a supported
energy, adding foils never increases the computed transmission. -/
lemma trFilters_anti (E : ℝ) (h1 : 6 ≤ E) (h2 : E ≤ 18)
    (nAl nAl' nNb nNb' : ℕ) (hAl : nAl ≤ nAl') (hNb : nNb ≤ nNb') :
    trFilters E nAl' nNb' ≤ trFilters E nAl nNb := by
  have ha : 0 < d_Nb / l_Nb E := by
    have := l_Nb_pos E h1 h2
    unfold d_Nb
    positivity
  have hb : 0 < d_Al / l_Al E := by
    have := l_Al_pos E h1 h2
    unfold d_Al
    positivity
  unfold trFilters
  have hNb' : Real.exp (-(nNb' : ℝ) * (d_Nb / l_Nb E)) ≤
      Real.exp (-(nNb : ℝ) * (d_Nb / l_Nb E)) := by
    apply Real.exp_le_exp.2
    have : (nNb : ℝ) ≤ (nNb' : ℝ) := by exact_mod_cast hNb
    nlinarith
  have hAl' : Real.exp (-(nAl' : ℝ) * (d_Al / l_Al E)) ≤
      Real.exp (-(nAl : ℝ) * (d_Al / l_Al E)) := by
    apply Real.exp_le_exp.2
    have : (nAl : ℝ) ≤ (nAl' : ℝ) := by exact_mod_cast hAl
    nlinarith
  exact mul_le_mul hNb' hAl' (Real.exp_nonneg _) (Real.exp_nonneg _)

/-- The absorber table selected at any supported energy is non-increasing in
the slot index. -/
lemma absorberList_anti (E : ℝ) (h1 : 6 ≤ E) (h2 : E ≤ 18) :
    (absorberList E).Pairwise (fun x y => y ≤ x) := by
  unfold absorberList
  by_cases hc1 : |E - 13.5| < 0.01
  · rw [if_pos hc1]
    norm_num [List.pairwise_cons]
  · rw [if_neg hc1]
    by_cases hc2 : |E - 17| < 0.01
    · rw [if_pos hc2]
      norm_num [List.pairwise_cons]
    · rw [if_neg hc2]
      by_cases hc3 : |E - 10| < 0.1
      · rw [if_pos hc3]
        norm_num [beam_int, List.pairwise_cons]
      · rw [if_neg hc3]
        have hpos : 0 < d_Nb_absorber / l_Nb E := by
          have := l_Nb_pos E h1 h2
          unfold d_Nb_absorber
          positivity
        rw [List.pairwise_map]
        refine (List.pairwise_lt_range 7).imp ?_
        intro a b hab
        apply Real.exp_le_exp.2
        have : (a : ℝ) ≤ (b : ℝ) := by exact_mod_cast le_of_lt hab
        nlinarith

/-- C8 — at every supported energy, the filter-bank transmission computed by
`calc_transmission_filters` is non-increasing in each foil count (pointwise
larger foil settings never increase it), and the absorber slot→transmission
table is non-increasing in the slot index. -/
theorem transmission_monotone (E : ℝ) (h1 : 6 ≤ E) (h2 : E ≤ 18) :
    (∀ nAl nAl' nNb nNb' : ℕ, nAl ≤ nAl' → nNb ≤ nNb' →
      trFilters E nAl' nNb' ≤ trFilters E nAl nNb) ∧
    (∀ N N' : Fin 8 → ℕ, (∀ b, N b ≤ N' b) →
      calc_transmission_filters E N' ≤ calc_transmission_filters E N) ∧
    (absorberList E).Pairwise (fun x y => y ≤ x) := by
  refine ⟨fun nAl nAl' nNb nNb' hAl hNb => trFilters_anti E h1 h2 _ _ _ _ hAl hNb,
    fun N N' hN => ?_, absorberList_anti E h1 h2⟩
  unfold calc_transmission_filters
  apply trFilters_anti E h1 h2
  · have h0 := hN 0
    have h1' := hN 1
    have h2' := hN 2
    have h3' := hN 3
    omega
  · have h4 := hN 4
    have h5 := hN 5
    have h6 := hN 6
    have h7 := hN 7
    omega

/-- Witness for C8: the generic energy 12 keV. -/
theorem transmission_monotone_witness :
    (∀ nAl nAl' nNb nNb' : ℕ, nAl ≤ nAl' → nNb ≤ nNb' →
      trFilters 12 nAl' nNb' ≤ trFilters 12 nAl nNb) ∧
    (∀ N N' : Fin 8 → ℕ, (∀ b, N b ≤ N' b) →
      calc_transmission_filters 12 N' ≤ calc_transmission_filters 12 N) ∧
    (absorberList 12).Pairwise (fun x y => y ≤ x) :=
  transmission_monotone 12 (by norm_num) (by norm_num)

/-! ## The scan at 13.5 keV: exact arithmetic and exponential bounds -/

/-- Exact value of `d_Nb / l_Nb` at 13.5 keV. -/
lemma dlNb_13p5 : d_Nb / l_Nb 13.5 = (8000000000 : ℝ) / 2758691363 := by
  unfold d_Nb l_Nb
  norm_num

/-- Exact value of `d_Al / l_Al` at 13.5 keV. -/
lemma dlAl_13p5 : d_Al / l_Al 13.5 = (200000000 : ℝ) / 291195357 := by
  unfold d_Al l_Al
  norm_num

/-- At 13.5 keV the grid exponent is the integer form over the common
denominator. -/
lemma xR_13p5_eq (i j : ℕ) :
    xR 13.5 i j = ((xInt i j : ℤ) : ℝ) / (2758691363 * 291195357) := by
  unfold xR xInt
  rw [dlNb_13p5, dlAl_13p5]
  push_cast
  ring

/-- Strict integer comparison transfers to the real exponents. -/
lemma xR_lt_of_xInt (i j i' j' : ℕ) (h : xInt i j < xInt i' j') :
    xR 13.5 i j < xR 13.5 i' j' := by
  rw [xR_13p5_eq, xR_13p5_eq]
  have hD : (0 : ℝ) < 2758691363 * 291195357 := by norm_num
  exact (div_lt_div_iff_of_pos_right hD).2 (by exact_mod_cast h)

/-- Non-strict integer comparison transfers to the real exponents. -/
lemma xR_le_of_xInt (i j i' j' : ℕ) (h : xInt i j ≤ xInt i' j') :
    xR 13.5 i j ≤ xR 13.5 i' j' := by
  rw [xR_13p5_eq, xR_13p5_eq]
  have hD : (0 : ℝ) < 2758691363 * 291195357 := by norm_num
  exact (div_le_div_iff_of_pos_right hD).2 (by exact_mod_cast h)

/-- The filter-box transmission of a grid pair is the exponential of the
negated total thickness. -/
lemma trFilters_eq_exp (E : ℝ) (i j : ℕ) :
    trFilters E j i = Real.exp (-xR E i j) := by
  unfold trFilters xR
  rw [← Real.exp_add]
  congr 1
  ring

set_option maxRecDepth 40000 in
/-- Every grid pair other than `(1, 5)` lies strictly below the `(1, 5)`
exponent or at/above the `(2, 1)` exponent: decidable integer check over the
256 grid points. -/
lemma grid_cases : ∀ p ∈ scanPairs, p ≠ (1, 5) →
    xInt p.1 p.2 < xInt 1 5 ∨ xInt 2 1 ≤ xInt p.1 p.2 := by
  have hall : (scanPairs.all fun p =>
      decide (p = (1, 5)) || decide (xInt p.1 p.2 < xInt 1 5) ||
        decide (xInt 2 1 ≤ xInt p.1 p.2)) = true := by decide
  intro p hp hne
  have h := List.all_eq_true.1 hall p hp
  simp only [Bool.or_eq_true, decide_eq_true_eq] at h
  rcases h with (h | h) | h
  · exact absurd h hne
  · exact Or.inl h
  · exact Or.inr h

/-- Upper exponential bound from the decimal bound on e: if
`2.7182818286 ^ p < c ^ q` then `exp (p / q) < c`. -/
lemma exp_nat_div_lt (p q : ℕ) (c : ℝ) (hq : 0 < q) (hc : 0 < c)
    (h : (2.7182818286 : ℝ) ^ p < c ^ q) : Real.exp ((p : ℝ) / q) < c := by
  have hq' : ((q : ℕ) : ℝ) ≠ 0 := by positivity
  have hpow : Real.exp ((p : ℝ) / q) ^ q = Real.exp p := by
    rw [← Real.exp_nat_mul]
    congr 1
    field_simp
  have he : Real.exp ((p : ℕ) : ℝ) = Real.exp 1 ^ p := by
    rw [← Real.exp_nat_mul, mul_one]
  have h2 : Real.exp ((p : ℝ) / q) ^ q < c ^ q := by
    rw [hpow, he]
    calc Real.exp 1 ^ p ≤ (2.7182818286 : ℝ) ^ p :=
          pow_le_pow_left₀ (Real.exp_pos 1).le Real.exp_one_lt_d9.le p
      _ < c ^ q := h
  exact lt_of_pow_lt_pow_left₀ q hc.le h2

/-- Lower exponential bound from the decimal bound on e: if
`c ^ q < 2.7182818283 ^ p` then `c < exp (p / q)`. -/
lemma lt_exp_nat_div (p q : ℕ) (c : ℝ) (hq : 0 < q) (hc : 0 ≤ c)
    (h : c ^ q < (2.7182818283 : ℝ) ^ p) : c < Real.exp ((p : ℝ) / q) := by
  have hq' : ((q : ℕ) : ℝ) ≠ 0 := by positivity
  have hpow : Real.exp ((p : ℝ) / q) ^ q = Real.exp p := by
    rw [← Real.exp_nat_mul]
    congr 1
    field_simp
  have he : Real.exp ((p : ℕ) : ℝ) = Real.exp 1 ^ p := by
    rw [← Real.exp_nat_mul, mul_one]
  have h2 : c ^ q < Real.exp ((p : ℝ) / q) ^ q := by
    rw [hpow, he]
    calc c ^ q < (2.7182818283 : ℝ) ^ p := h
      _ ≤ Real.exp 1 ^ p := pow_le_pow_left₀ (by norm_num) Real.exp_one_gt_d9.le p
  exact lt_of_pow_lt_pow_left₀ q (Real.exp_pos _).le h2

set_option maxHeartbeats 2000000 in
/-- The achieved transmission of the pair `(N_Nb, N_Al) = (1, 5)` at
13.5 keV exceeds the request 0.0017. -/
lemma T15_gt : (0.0017 : ℝ) < Real.exp (-xR 13.5 1 5) := by
  have hx : xR 13.5 1 5 ≤ 203 / 32 := by
    rw [xR_13p5_eq]
    rw [div_le_div_iff (by norm_num) (by norm_num)]
    norm_num [xInt]
  have hmono : Real.exp (-(203 / 32 : ℝ)) ≤ Real.exp (-xR 13.5 1 5) :=
    Real.exp_le_exp.2 (by linarith)
  have hbound : Real.exp ((203 : ℝ) / 32) < 10000 / 17 := by
    have h := exp_nat_div_lt 203 32 (10000 / 17) (by norm_num) (by norm_num)
      (by norm_num)
    norm_num at h
    exact h
  have hinv : (17 / 10000 : ℝ) < Real.exp (-(203 / 32 : ℝ)) := by
    rw [Real.exp_neg]
    have h2 := inv_lt_inv_of_lt (Real.exp_pos ((203 : ℝ) / 32)) hbound
    norm_num at h2 ⊢
    linarith
  calc (0.0017 : ℝ) = 17 / 10000 := by norm_num
    _ < Real.exp (-(203 / 32 : ℝ)) := hinv
    _ ≤ Real.exp (-xR 13.5 1 5) := hmono

set_option maxHeartbeats 2000000 in
/-- Upper bound on the achieved transmission of `(1, 5)` at 13.5 keV. -/
lemma T15_lt : Real.exp (-xR 13.5 1 5) < 179 / 100000 := by
  have hx : (405 / 64 : ℝ) ≤ xR 13.5 1 5 := by
    rw [xR_13p5_eq]
    rw [div_le_div_iff (by norm_num) (by norm_num)]
    norm_num [xInt]
  have hmono : Real.exp (-xR 13.5 1 5) ≤ Real.exp (-(405 / 64 : ℝ)) :=
    Real.exp_le_exp.2 (by linarith)
  have hbound : (100000 / 179 : ℝ) < Real.exp ((405 : ℝ) / 64) := by
    have h := lt_exp_nat_div 405 64 (100000 / 179) (by norm_num) (by norm_num)
      (by norm_num)
    norm_num at h
    exact h
  have hinv : Real.exp (-(405 / 64 : ℝ)) < 179 / 100000 := by
    rw [Real.exp_neg]
    have h2 := inv_lt_inv_of_lt (by norm_num : (0 : ℝ) < 100000 / 179) hbound
    norm_num at h2 ⊢
    linarith
  linarith

set_option maxHeartbeats 2000000 in
/-- Upper bound on the transmission of the next-best pair `(2, 1)` at
13.5 keV. -/
lemma T21_lt : Real.exp (-xR 13.5 2 1) < 153 / 100000 := by
  have hx : (415 / 64 : ℝ) ≤ xR 13.5 2 1 := by
    rw [xR_13p5_eq]
    rw [div_le_div_iff (by norm_num) (by norm_num)]
    norm_num [xInt]
  have hmono : Real.exp (-xR 13.5 2 1) ≤ Real.exp (-(415 / 64 : ℝ)) :=
    Real.exp_le_exp.2 (by linarith)
  have hbound : (100000 / 153 : ℝ) < Real.exp ((415 : ℝ) / 64) := by
    have h := lt_exp_nat_div 415 64 (100000 / 153) (by norm_num) (by norm_num)
      (by norm_num)
    norm_num at h
    exact h
  have hinv : Real.exp (-(415 / 64 : ℝ)) < 153 / 100000 := by
    rw [Real.exp_neg]
    have h2 := inv_lt_inv_of_lt (by norm_num : (0 : ℝ) < 100000 / 153) hbound
    norm_num at h2 ⊢
    linarith
  linarith

/-- At 13.5 keV and requested transmission 0.0017, the brute-force scan
selects the pair `(N_Nb, N_Al) = (1, 5)`: it is the unique global minimiser
of the deviation over the 16×16 grid. -/
lemma scan_13p5_0017 : setTransmissionSelect 13.5 0.0017 = (1, 5) := by
  unfold setTransmissionSelect
  apply scanSelect_eq_of_unique
  · exact (by decide : ((1, 5) : ℕ × ℕ) ∈ scanPairs)
  · intro p hp hne
    have hu_gt := T15_gt
    have hu_lt := T15_lt
    have h21 := T21_lt
    have hdevu : devT 13.5 0.0017 (1, 5) = Real.exp (-xR 13.5 1 5) - 0.0017 := by
      show |(0.0017 : ℝ) - trFilters 13.5 5 1| = _
      rw [trFilters_eq_exp, abs_sub_comm, abs_of_nonneg (by linarith)]
    cases p with
    | mk i j =>
      have hdevp : devT 13.5 0.0017 (i, j) = |(0.0017 : ℝ) - Real.exp (-xR 13.5 i j)| := by
        show |(0.0017 : ℝ) - trFilters 13.5 j i| = _
        rw [trFilters_eq_exp]
      rcases grid_cases (i, j) hp hne with hlt | hge
      · have hx := xR_lt_of_xInt i j 1 5 hlt
        have hT : Real.exp (-xR 13.5 1 5) < Real.exp (-xR 13.5 i j) :=
          Real.exp_lt_exp.2 (by linarith)
        rw [hdevu, hdevp, abs_sub_comm, abs_of_nonneg (by linarith)]
        linarith
      · have hx := xR_le_of_xInt 2 1 i j hge
        have hT : Real.exp (-xR 13.5 i j) ≤ Real.exp (-xR 13.5 2 1) :=
          Real.exp_le_exp.2 (by linarith)
        have habs : (0.0017 : ℝ) - Real.exp (-xR 13.5 i j) ≤
            |(0.0017 : ℝ) - Real.exp (-xR 13.5 i j)| := le_abs_self _
        rw [hdevu, hdevp]
        have h17 : (0.0017 : ℝ) = 17 / 10000 := by norm_num
        nlinarith

/-! ## Claim theorems: the transmission scan -/

/-- C5 counterexample — at 13.5 keV and requested transmission 0.0017 the
scan does NOT select `N_Nb = 2` with no other foils (the pair `(2, 0)`): it
selects `(N_Nb, N_Al) = (1, 5)`. -/
theorem setTransmission_13p5_cex :
    setTransmissionSelect 13.5 0.0017 ≠ (2, 0) ∧
      setTransmissionSelect 13.5 0.0017 = (1, 5) :=
  ⟨by rw [scan_13p5_0017]; decide, scan_13p5_0017⟩

/-- C5 (amended) — at 13.5 keV and requested transmission 0.0017, the scan
selects `(N_Nb, N_Al) = (1, 5)` (one Nb foil and five Al foils), and the
achieved filter-box transmission `trFilters 13.5 5 1` lies strictly between
0.0017 and 0.0018 (numerically ≈ 0.0017748); it is close to, but not given
by, the absorber-table value 0.0017425. -/
theorem setTransmission_13p5_selects :
    setTransmissionSelect 13.5 0.0017 = (1, 5) ∧
      (0.0017 : ℝ) < trFilters 13.5 5 1 ∧ trFilters 13.5 5 1 < 0.0018 := by
  refine ⟨scan_13p5_0017, ?_, ?_⟩
  · rw [trFilters_eq_exp]
    exact T15_gt
  · rw [trFilters_eq_exp]
    calc Real.exp (-xR 13.5 1 5) < 179 / 100000 := T15_lt
      _ < 0.0018 := by norm_num

/-- C1 counterexample — ties are NOT resolved to the first-found pair.  At
13.5 keV with target `(1 + exp (-d_Al/l_Al)) / 2`, the pairs `(0, 0)` and
`(0, 1)` tie for the global minimum of the deviation, and the scan leaves
the later pair `(0, 1)` in the loop variables, because the update condition
`dev_ij == min(dev)` also fires on a tie. -/
theorem setTransmission_tie_cex :
    ¬ firstFoundTieAt 13.5 ((1 + Real.exp (-(d_Al / l_Al 13.5))) / 2) := by
  have hb : (0 : ℝ) < d_Al / l_Al 13.5 := by
    rw [dlAl_13p5]
    norm_num
  have hab : d_Al / l_Al 13.5 < d_Nb / l_Nb 13.5 := by
    rw [dlAl_13p5, dlNb_13p5]
    norm_num
  have heb1 : Real.exp (-(d_Al / l_Al 13.5)) < 1 :=
    Real.exp_lt_one_iff.2 (by linarith)
  have hebpos := Real.exp_pos (-(d_Al / l_Al 13.5))
  set eb := Real.exp (-(d_Al / l_Al 13.5)) with heb
  set t := (1 + eb) / 2 with ht
  have htlt1 : t < 1 := by rw [ht]; linarith
  have htgt : eb < t := by rw [ht]; linarith
  have hx00 : xR 13.5 0 0 = 0 := by unfold xR; norm_num
  have hx01 : xR 13.5 0 1 = d_Al / l_Al 13.5 := by unfold xR; norm_num
  have hdev00 : devT 13.5 t (0, 0) = (1 - eb) / 2 := by
    show |t - trFilters 13.5 0 0| = _
    rw [trFilters_eq_exp, hx00, neg_zero, Real.exp_zero, abs_sub_comm,
      abs_of_nonneg (by linarith)]
    rw [ht]
    ring
  have hdev01 : devT 13.5 t (0, 1) = (1 - eb) / 2 := by
    show |t - trFilters 13.5 1 0| = _
    rw [trFilters_eq_exp, hx01, ← heb, abs_of_nonneg (by linarith)]
    rw [ht]
    ring
  have hsel : setTransmissionSelect 13.5 t = (0, 1) := by
    unfold setTransmissionSelect
    apply scanSelect_eq_of_tie (devT 13.5 t) (0, 0) (0, 1)
    · exact (by decide : ((0, 1) : ℕ × ℕ) ∈ scanPairs)
    · rw [hdev00, hdev01]
    · intro p hp hne0 hne1
      cases p with
      | mk i j =>
        have hij : 1 ≤ i ∨ (i = 0 ∧ 2 ≤ j) := by
          by_contra hcon
          push_neg at hcon
          have hi0 : i = 0 := by omega
          have : j = 0 ∨ j = 1 := by omega
          rcases this with rfl | rfl
          · exact hne0 (by rw [hi0])
          · exact hne1 (by rw [hi0])
        have hxgt : d_Al / l_Al 13.5 < xR 13.5 i j := by
          have haval : (0 : ℝ) < d_Nb / l_Nb 13.5 := by linarith
          rcases hij with h1 | ⟨rfl, h2⟩
          · have h1' : (1 : ℝ) ≤ (i : ℝ) := by exact_mod_cast h1
            have hterm : d_Nb / l_Nb 13.5 ≤ (i : ℝ) * (d_Nb / l_Nb 13.5) :=
              le_mul_of_one_le_left haval.le h1'
            have hterm2 : (0 : ℝ) ≤ (j : ℝ) * (d_Al / l_Al 13.5) := by positivity
            unfold xR
            linarith
          · have h2' : (2 : ℝ) ≤ (j : ℝ) := by exact_mod_cast h2
            have hterm : 2 * (d_Al / l_Al 13.5) ≤ (j : ℝ) * (d_Al / l_Al 13.5) :=
              mul_le_mul_of_nonneg_right h2' hb.le
            unfold xR
            push_cast
            linarith
        have hT : Real.exp (-xR 13.5 i j) < eb := by
          rw [heb]
          exact Real.exp_lt_exp.2 (by linarith)
        have hdevp : devT 13.5 t (i, j) = |t - Real.exp (-xR 13.5 i j)| := by
          show |t - trFilters 13.5 j i| = _
          rw [trFilters_eq_exp]
        rw [hdev01, hdevp, abs_of_nonneg (by linarith)]
        have : (1 - eb) / 2 = t - eb := by rw [ht]; ring
        linarith
    · decide
  intro hclaim
  have h := hclaim (0, 0) (by decide)
  rw [hsel] at h
  have h2 := h (by rw [hdev00, hdev01])
  omega

/-- C1 (amended) — for every target and energy, the pair left by the 16×16
brute-force scan of `setTransmission` lies on the grid and globally
minimises the deviation `|target − T(N_Al, N_Nb)|`; when several pairs
attain the minimum, the LAST-found pair in scan order (highest `N_Nb`, then
highest `N_Al` among the minimisers) is selected. -/
theorem setTransmission_scan_optimal (E t : ℝ) (hE1 : 6 ≤ E) (hE2 : E ≤ 18)
    (ht1 : 0 < t) (ht2 : t ≤ 1) :
    setTransmissionSelect E t ∈ scanPairs ∧
      (∀ p ∈ scanPairs, devT E t (setTransmissionSelect E t) ≤ devT E t p) ∧
      (∀ q ∈ scanPairs, devT E t q ≤ devT E t (setTransmissionSelect E t) →
        16 * q.1 + q.2 ≤
          16 * (setTransmissionSelect E t).1 + (setTransmissionSelect E t).2) := by
  unfold setTransmissionSelect
  exact ⟨scanSelect_mem _, scanSelect_min _, scanSelect_last _⟩

/-- Witness for C1 (amended): energy 12 keV, target 1/2. -/
theorem setTransmission_scan_optimal_witness :
    setTransmissionSelect 12 (1 / 2) ∈ scanPairs ∧
      (∀ p ∈ scanPairs, devT 12 (1 / 2) (setTransmissionSelect 12 (1 / 2)) ≤
        devT 12 (1 / 2) p) ∧
      (∀ q ∈ scanPairs, devT 12 (1 / 2) q ≤
          devT 12 (1 / 2) (setTransmissionSelect 12 (1 / 2)) →
        16 * q.1 + q.2 ≤ 16 * (setTransmissionSelect 12 (1 / 2)).1 +
          (setTransmissionSelect 12 (1 / 2)).2) :=
  setTransmission_scan_optimal 12 (1 / 2) (by norm_num) (by norm_num)
    (by norm_num) (by norm_num)
